import Mathlib

/-!
Verification development for the transport-recommendation UI script
(src/ui-service/script.js). The script is browser-side JavaScript: it
builds one GET request from form fields, renders the JSON response into
DOM regions, persists a preference string in local storage, and shows
error text on failure. We embed the script shallowly: JSON-derived
JavaScript values become the inductive type JSVal; DOM state relevant to
the script becomes the record DomState; the submit handler becomes a list
of primitive DOM actions folded over the state; code that can throw a
TypeError returns a value paired with an optional error message.
-/

set_option maxHeartbeats 1000000

namespace TransportUI

/-- JavaScript values reachable in the script. All data flowing through the
script originates from form fields (strings), string literals, or
response.json(), so no function values or symbols can occur; numbers are
modelled as rationals (exact for the decimal literals JSON carries). -/
inductive JSVal where
  | undefined : JSVal
  | null : JSVal
  | bool (b : Bool) : JSVal
  | num (q : ℚ) : JSVal
  | str (s : String) : JSVal
  | arr (elems : List JSVal) : JSVal
  | obj (fields : List (String × JSVal)) : JSVal

/-- JavaScript ToBoolean on the values above (NaN cannot arise from JSON). -/
def JSVal.truthy : JSVal → Bool
  | .undefined => false
  | .null => false
  | .bool b => b
  | .num q => decide (q ≠ 0)
  | .str s => decide (s ≠ "")
  | .arr _ => true
  | .obj _ => true

/-- First binding for a key; objects built by JSON.parse have unique keys,
so first-match equals the object lookup. Missing keys give undefined. -/
def lookupField : List (String × JSVal) → String → JSVal
  | [], _ => .undefined
  | (k, v) :: rest, f => if k = f then v else lookupField rest f

/-- JavaScript property read. Reading a property of null or undefined
throws a TypeError (modelled as the error branch, message approximating
the engine text); any other value yields the property or undefined.
Only the length property of arrays and strings matters to the script. -/
def JSVal.getField : JSVal → String → Except String JSVal
  | .undefined, f => .error ("TypeError: cannot read properties of undefined (reading " ++ f ++ ")")
  | .null, f => .error ("TypeError: cannot read properties of null (reading " ++ f ++ ")")
  | .obj fields, f => .ok (lookupField fields f)
  | .arr xs, f => .ok (if f = "length" then .num (xs.length : ℚ) else .undefined)
  | .str s, f => .ok (if f = "length" then .num (s.length : ℚ) else .undefined)
  | .bool _, _ => .ok .undefined
  | .num _, _ => .ok .undefined

/-- Total property read, used only where the receiver is known not to be
null or undefined (so getField cannot throw). -/
def JSVal.getD (v : JSVal) (f : String) : JSVal :=
  match v.getField f with
  | .ok w => w
  | .error _ => .undefined

/-- The JavaScript logical-or used by the script: first operand if truthy,
else second operand. -/
def jsOr (a b : JSVal) : JSVal := if a.truthy then a else b

/-- Decimal digits of the fraction n/d (with 0 ≤ n < d), most significant
first, by repeated scaling: each step emits (n*10)/d and continues with
the remainder. The fuel bounds the expansion; it is exact whenever the
expansion terminates within it, which covers every decimal literal a JSON
body can carry at double precision. -/
def fracDigitsND : Nat → Nat → Nat → List Char
  | 0, _, _ => []
  | fuel + 1, n, d =>
    if n = 0 then []
    else Char.ofNat (48 + (n * 10) / d) :: fracDigitsND fuel ((n * 10) % d) d

/-- Decimal rendering of a nonnegative rational, computed on its
canonical reduced fraction (numerator over positive denominator):
integer part, then a dot and the fractional digits when the denominator
exceeds one. -/
def numToStringNN (q : ℚ) : String :=
  let a := q.num.toNat
  if q.den = 1 then toString a
  else toString (a / q.den) ++ "." ++ String.mk (fracDigitsND 30 (a % q.den) q.den)

/-- JavaScript Number-to-String on the rationals the script handles:
integers print without a decimal point, other values print their
terminating decimal expansion (exact for JSON decimal literals). -/
def numToString (q : ℚ) : String :=
  if q < 0 then "-" ++ numToStringNN (-q) else numToStringNN q

/-- Fixed two-digit rendering of a nonnegative rational a/b: the value
rounded to the nearest hundredth with ties upward is the integer
(200*a + b) / (2*b), printed with exactly two fractional digits. -/
def toFixed2NN (q : ℚ) : String :=
  let n : Nat := (200 * q.num.toNat + q.den) / (2 * q.den)
  toString (n / 100) ++ "." ++ (if n % 100 < 10 then "0" else "") ++ toString (n % 100)

/-- Number.prototype.toFixed(2) as specified by ECMAScript on exact
rationals: the sign is split off and the magnitude is rounded to the
nearest hundredth with ties taking the larger value. -/
def toFixed2 (q : ℚ) : String :=
  if q < 0 then "-" ++ toFixed2NN (-q) else toFixed2NN q

mutual

/-- JavaScript ToString on the values above. Objects print as the fixed
object tag; arrays print their elements joined by commas with holes for
null and undefined, as Array.prototype.toString does. -/
def jsToString : JSVal → String
  | .undefined => "undefined"
  | .null => "null"
  | .bool b => cond b "true" "false"
  | .num q => numToString q
  | .str s => s
  | .arr xs => arrJoin xs
  | .obj _ => "[object Object]"

/-- Array.prototype.join with the default comma separator: null and
undefined elements contribute empty strings. -/
def arrJoin : List JSVal → String
  | [] => ""
  | [JSVal.undefined] => ""
  | [JSVal.null] => ""
  | [x] => jsToString x
  | JSVal.undefined :: y :: rest => "," ++ arrJoin (y :: rest)
  | JSVal.null :: y :: rest => "," ++ arrJoin (y :: rest)
  | x :: y :: rest => jsToString x ++ "," ++ arrJoin (y :: rest)

end

/-- The WhiteSpace and LineTerminator code points recognised by
String.prototype.trim. -/
def jsWhitespaceChar (c : Char) : Bool :=
  c.toNat = 9 || c.toNat = 10 || c.toNat = 11 || c.toNat = 12 || c.toNat = 13 ||
  c.toNat = 32 || c.toNat = 160 || c.toNat = 0x1680 ||
  (0x2000 ≤ c.toNat && c.toNat ≤ 0x200A) ||
  c.toNat = 0x2028 || c.toNat = 0x2029 || c.toNat = 0x202F ||
  c.toNat = 0x205F || c.toNat = 0x3000 || c.toNat = 0xFEFF

/-- Strip recognised whitespace from both ends of a character list. -/
def trimWS (l : List Char) : List Char :=
  ((l.dropWhile jsWhitespaceChar).reverse.dropWhile jsWhitespaceChar).reverse

/-- String.prototype.trim. -/
def jsTrim (s : String) : String := String.mk (trimWS s.data)

/-- Value of a decimal digit character, none for other characters. -/
def digitVal (c : Char) : Option Nat :=
  if 48 ≤ c.toNat && c.toNat ≤ 57 then some (c.toNat - 48) else none

/-- Accumulate the value of a digit string; none on any non-digit. -/
def digitsValGo : List Char → Nat → Option Nat
  | [], acc => some acc
  | c :: cs, acc =>
    match digitVal c with
    | some d => digitsValGo cs (10 * acc + d)
    | none => none

/-- Value of a nonempty digit string. -/
def digitsValOpt (l : List Char) : Option Nat :=
  if l.isEmpty then none else digitsValGo l 0

/-- Split a character list on a separator character. -/
def splitOnChar (sep : Char) : List Char → List (List Char)
  | [] => [[]]
  | c :: cs =>
    let rest := splitOnChar sep cs
    if c = sep then [] :: rest
    else
      match rest with
      | [] => [[c]]
      | g :: gs => (c :: g) :: gs

/-- ECMAScript StringToNumber restricted to plain signed decimal numerals
(optional sign, digits, optional dot and digits): exactly the forms a
length-like JSON value could take. The whitespace-trimmed empty string is
zero; unparsable strings are NaN, modelled as none. Hexadecimal, exponent
and Infinity forms are out of the reachable value space and map to none. -/
def parseNumQ (s : String) : Option ℚ :=
  match trimWS s.data with
  | [] => some (0 : ℚ)
  | l =>
    let signed : ℚ × List Char :=
      match l with
      | c :: rest =>
        if c = Char.ofNat 45 then (-1, rest)
        else if c = Char.ofNat 43 then (1, rest)
        else (1, l)
      | [] => (1, l)
    match splitOnChar (Char.ofNat 46) signed.2 with
    | [ip] =>
      match digitsValOpt ip with
      | some n => some (signed.1 * (n : ℚ))
      | none => none
    | [ip, fp] =>
      if ip.isEmpty && fp.isEmpty then none
      else
        match (if ip.isEmpty then some 0 else digitsValOpt ip),
              (if fp.isEmpty then some (0 : ℚ)
               else (digitsValOpt fp).map fun n => (n : ℚ) / (10 : ℚ) ^ fp.length) with
        | some i, some f => some (signed.1 * ((i : ℚ) + f))
        | _, _ => none
    | _ => none

/-- JavaScript ToNumber on the values above, none standing for NaN.
Arrays and objects convert through their ToString form. -/
def toNumber : JSVal → Option ℚ
  | .undefined => none
  | .null => some 0
  | .bool b => some (cond b 1 0)
  | .num q => some q
  | .str s => parseNumQ s
  | .arr xs => parseNumQ (arrJoin xs)
  | .obj _ => none

/-- The comparison (v > 0) as the script applies it to length values:
ToNumber on the left operand, false when that is NaN. -/
def jsGt0 (v : JSVal) : Bool :=
  match toNumber v with
  | some q => decide (q > 0)
  | none => false

/-- The interpolation slots of the recommendation list-item template, in
template order. The script sets li.innerHTML to a fixed markup skeleton
whose blanks are exactly these six strings: the mode icon span, the mode
after the Mode label, the duration before the word minutes, the cost after
the dollar sign of the Est. Cost line (the dollar sign is part of
costText below, matching the template character), the CO2 amount before
kg, and the source inside the parenthesised Source line. -/
structure RecLi where
  icon : String
  modeText : String
  durationText : String
  costText : String
  co2Text : String
  sourceText : String
deriving DecidableEq, Repr

/-- A child of the recommendation list: either the literal empty-state
list item assigned through innerHTML, or an appended recommendation item. -/
inductive LiItem where
  | literal (html : String) : LiItem
  | entry (e : RecLi) : LiItem
deriving DecidableEq, Repr

/-- The parts of document state the script reads or writes: the two form
controls, the HTML of the origin and notes regions, the children of the
recommendation list, the error text and the visibility flags, plus the
browser local storage backing the preference (an association of keys to
stored strings). -/
structure DomState where
  destinationValue : String
  preferenceValue : String
  originHTML : String
  notesHTML : String
  notesVisible : Bool
  items : List LiItem
  errorText : String
  errorVisible : Bool
  resultsVisible : Bool
  loadingVisible : Bool
  submitDisabled : Bool
  storage : List (String × String)
deriving DecidableEq, Repr

/-- A blank document: empty regions, everything hidden, nothing stored. -/
def dom0 : DomState :=
  { destinationValue := ""
    preferenceValue := "fastest"
    originHTML := ""
    notesHTML := ""
    notesVisible := false
    items := []
    errorText := ""
    errorVisible := false
    resultsVisible := false
    loadingVisible := false
    submitDisabled := false
    storage := [] }

/-- Icon chosen by the chain of strict string comparisons on rec.mode:
six recognised modes, empty icon otherwise. -/
def iconFor : JSVal → String
  | .str s =>
    if s = "car" then "🚗"
    else if s = "bus" then "🚌"
    else if s = "train" then "🚆"
    else if s = "bicycle" then "🚲"
    else if s = "walking" then "🚶"
    else if s = "scooter" then "🛴"
    else ""
  | _ => ""

/-- One iteration of the forEach over data.recommendations: reading
rec.mode throws when rec is null or undefined; building the template
throws when cost_usd or environmental_impact_co2_kg lacks a toFixed
method, that is, when it is not a number; every other field interpolates
through ToString, with source_cloud falling back through logical-or to
the Unknown Cloud label. -/
def renderRec (rec : JSVal) : Except String RecLi :=
  match rec.getField "mode" with
  | .error m => .error m
  | .ok mode =>
    match rec.getD "cost_usd", rec.getD "environmental_impact_co2_kg" with
    | .num cost, .num co2 =>
      .ok { icon := iconFor mode
            modeText := jsToString mode
            durationText := jsToString (rec.getD "duration_minutes")
            costText := "$" ++ toFixed2 cost
            co2Text := toFixed2 co2
            sourceText := jsToString (jsOr (rec.getD "source_cloud") (.str "Unknown Cloud")) }
    | .num _, _ => .error "TypeError: rec.environmental_impact_co2_kg.toFixed is not a function"
    | _, _ => .error "TypeError: rec.cost_usd.toFixed is not a function"

/-- The forEach loop: items built before the first throwing iteration are
already appended to the list when the exception escapes. -/
def renderRecs : List JSVal → List LiItem × Option String
  | [] => ([], none)
  | r :: rs =>
    match renderRec r with
    | .error m => ([], some m)
    | .ok li =>
      let (rest, err) := renderRecs rs
      (LiItem.entry li :: rest, err)

/-- The origin section of displayResults: the truthiness test
(data.origin && data.origin.city) selects between the detected-origin
line and the fixed fallback line. Reading data.origin throws when data
itself is null or undefined. -/
def displayOrigin (data : JSVal) (s : DomState) : DomState × Option String :=
  match data.getField "origin" with
  | .error m => (s, some m)
  | .ok origin =>
    if origin.truthy && (origin.getD "city").truthy then
      ({ s with originHTML :=
          "<p><strong>Detected Origin:</strong> " ++ jsToString (origin.getD "city") ++ "</p>" },
       none)
    else
      ({ s with originHTML := "<p>Origin information not available.</p>" }, none)

/-- The notes section: when (data.notes && data.notes.length > 0) the
script maps each note to a paragraph, joins with the empty separator and
reveals the region; map throws on a non-array receiver; otherwise the
region is hidden, its old HTML left in place. -/
def displayNotes (notes : JSVal) (s : DomState) : DomState × Option String :=
  if notes.truthy && jsGt0 (notes.getD "length") then
    match notes with
    | .arr xs =>
      ({ s with
          notesHTML := String.join (xs.map fun note => "<p>" ++ jsToString note ++ "</p>")
          notesVisible := true },
       none)
    | _ => (s, some "TypeError: data.notes.map is not a function")
  else ({ s with notesVisible := false }, none)

/-- The recommendations section: the list is cleared first, then either
the forEach appends one item per recommendation (forEach throws on a
non-array receiver) or the literal empty-state item is assigned. -/
def displayRecs (recs : JSVal) (s : DomState) : DomState × Option String :=
  let s := { s with items := [] }
  if recs.truthy && jsGt0 (recs.getD "length") then
    match recs with
    | .arr xs =>
      let (lis, err) := renderRecs xs
      ({ s with items := lis }, err)
    | _ => (s, some "TypeError: data.recommendations.forEach is not a function")
  else
    ({ s with items := [LiItem.literal "No recommendations found matching your criteria."] }, none)

/-- displayResults(data): the three sections run in program order; a
thrown TypeError stops the remaining sections but keeps the document
mutations already performed. -/
def displayResults (data : JSVal) (s : DomState) : DomState × Option String :=
  match displayOrigin data s with
  | (s1, some m) => (s1, some m)
  | (s1, none) =>
    match displayNotes (data.getD "notes") s1 with
    | (s2, some m) => (s2, some m)
    | (s2, none) => displayRecs (data.getD "recommendations") s2

/-- displayError(message): sets the error text with the fixed prefix and
reveals the error region. -/
def displayError (message : String) (s : DomState) : DomState :=
  { s with errorText := "Error: " ++ message, errorVisible := true }

/-- clearResults(): empties the recommendation list, origin region, notes
region and error text, hides the error region and the whole results area.
The notes visibility flag is not touched by the script here. -/
def clearResults (s : DomState) : DomState :=
  { s with
      items := []
      originHTML := ""
      notesHTML := ""
      errorText := ""
      errorVisible := false
      resultsVisible := false }

/-- The fixed local-storage key for the preference value. -/
def PREFERENCE_STORAGE_KEY : String := "transportPreference"

/-- localStorage.setItem: replace any binding of the key. -/
def setItem (store : List (String × String)) (k v : String) : List (String × String) :=
  (k, v) :: store.filter fun kv => kv.1 ≠ k

/-- localStorage.getItem: the stored string, none when the key is absent. -/
def getItem (store : List (String × String)) (k : String) : Option String :=
  (store.find? fun kv => kv.1 = k).map fun kv => kv.2

/-- savePreference(): writes the current select value under the fixed key. -/
def savePreference (s : DomState) : DomState :=
  { s with storage := setItem s.storage PREFERENCE_STORAGE_KEY s.preferenceValue }

/-- loadPreference(): reads the fixed key and assigns the select value
only when the stored value is truthy (getItem yields null for a missing
key, and an empty stored string is falsy). -/
def loadPreference (s : DomState) : DomState :=
  match getItem s.storage PREFERENCE_STORAGE_KEY with
  | some v => if v = "" then s else { s with preferenceValue := v }
  | none => s

/-- Characters encodeURIComponent leaves alone: ASCII letters, digits,
and the marks minus, underscore, dot, exclamation, tilde, asterisk,
apostrophe and parentheses (codes 45, 95, 46, 33, 126, 42, 39, 40, 41). -/
def isUnreservedChar (c : Char) : Bool :=
  (65 ≤ c.toNat && c.toNat ≤ 90) || (97 ≤ c.toNat && c.toNat ≤ 122) ||
  (48 ≤ c.toNat && c.toNat ≤ 57) ||
  c.toNat = 45 || c.toNat = 95 || c.toNat = 46 || c.toNat = 33 || c.toNat = 126 ||
  c.toNat = 42 || c.toNat = 39 || c.toNat = 40 || c.toNat = 41

/-- Uppercase hexadecimal digit character for a value below sixteen. -/
def hexChar (n : Nat) : Char :=
  if n < 10 then Char.ofNat (48 + n) else Char.ofNat (55 + n)

/-- Percent-escape of one byte. -/
def pctByte (b : Nat) : List Char :=
  [Char.ofNat 37, hexChar (b / 16), hexChar (b % 16)]

/-- UTF-8 bytes of a code point (Lean characters exclude surrogates, on
which encodeURIComponent would throw a URIError). -/
def utf8Bytes (c : Char) : List Nat :=
  let n := c.toNat
  if n < 0x80 then [n]
  else if n < 0x800 then [0xC0 + n / 0x40, 0x80 + n % 0x40]
  else if n < 0x10000 then
    [0xE0 + n / 0x1000, 0x80 + (n / 0x40) % 0x40, 0x80 + n % 0x40]
  else
    [0xF0 + n / 0x40000, 0x80 + (n / 0x1000) % 0x40, 0x80 + (n / 0x40) % 0x40, 0x80 + n % 0x40]

/-- Encoding of one character: kept verbatim when unreserved, otherwise
each UTF-8 byte is percent-escaped. -/
def encChar (c : Char) : List Char :=
  if isUnreservedChar c then [c]
  else (utf8Bytes c).foldr (fun b acc => pctByte b ++ acc) []

/-- encodeURIComponent over a character list. -/
def encodeChars (l : List Char) : List Char :=
  l.foldr (fun c acc => encChar c ++ acc) []

/-- The encodeURIComponent builtin the script applies to both query
parameters. -/
def encodeURIComponent (s : String) : String :=
  String.mk (encodeChars s.data)

/-- The relative URL built by fetchRecommendations: a fixed path and the
two encoded query parameters in a template literal. The commented-out
test_ip branch of the source never extends the string. -/
def routeUrl (destination preference : String) : String :=
  "/api/route?destination=" ++ encodeURIComponent destination ++
    "&preference=" ++ encodeURIComponent preference

/-- Everything after the first question mark. -/
def dropThroughChar (sep : Char) : List Char → List Char
  | [] => []
  | c :: cs => if c = sep then cs else dropThroughChar sep cs

/-- Split a key-value chunk at its first equals sign; a chunk without one
is a key with an empty value. -/
def splitKV : List Char → String × String
  | [] => ("", "")
  | c :: cs =>
    if c = Char.ofNat 61 then ("", String.mk cs)
    else
      let r := splitKV cs
      (String.mk (c :: r.1.data), r.2)

/-- Parse the query portion of a URL into its key-value pairs: the text
after the first question mark, split on ampersands, each chunk split at
its first equals sign. This is the observer the URL claims are stated
against. -/
def parseQuery (url : String) : List (String × String) :=
  (splitOnChar (Char.ofNat 38) (dropThroughChar (Char.ofNat 63) url.data)).map splitKV

/-- The answer of the environment to the single fetch: the HTTP status and the
outcome of attempting to parse the body as JSON (the error branch carries
the parse-failure message response.json() would throw with). -/
structure HttpResponse where
  status : Nat
  body : Except String JSVal

/-- Response.ok of the Fetch standard: status in the inclusive 2xx range. -/
def respOk (status : Nat) : Bool := 200 ≤ status && status ≤ 299

/-- The Error object thrown by the script: its message and the status
code the script attaches on the HTTP-error path. -/
structure JsError where
  message : String
  status : Option Nat
deriving DecidableEq, Repr

/-- The message assembled on a non-ok response: a generic fallback
mentioning the status, replaced by body.error or body.details through
JavaScript logical-or (so a falsy field such as an empty string is passed
over), left as the fallback when the body did not parse or is null (the
property read throws inside the try and is swallowed by the catch). The
chosen value passes through ToString when the Error is constructed. -/
def errMessage (status : Nat) (body : Except String JSVal) : String :=
  let fallback : JSVal := .str ("Server responded with status: " ++ toString status)
  match body with
  | .error _ => jsToString fallback
  | .ok b =>
    match b.getField "error" with
    | .error _ => jsToString fallback
    | .ok e => jsToString (jsOr e (jsOr (b.getD "details") fallback))

/-- fetchRecommendations(destination, preference): builds relativeUrl and
issues the single GET for it (the first component records the URL
fetched); on a non-ok status throws a JsError carrying the assembled
message and the numeric status; on an ok status returns the parsed body,
or throws the parse failure (without attached status) when the body is
not JSON. -/
def fetchRecommendations (destination preference : String) (response : HttpResponse) :
    String × Except JsError JSVal :=
  (routeUrl destination preference,
   if respOk response.status then
     match response.body with
     | .ok data => .ok data
     | .error parseMsg => .error { message := parseMsg, status := none }
   else
     .error { message := errMessage response.status response.body,
              status := some response.status })

/-- Primitive observable steps of the submit handler, in program order. -/
inductive Action where
  | showError (message : String) : Action
  | clear : Action
  | showArea : Action
  | showLoading : Action
  | disableBtn : Action
  | fetchGet (url : String) : Action
  | render (data : JSVal) : Action
  | logError : Action
  | hideLoading : Action
  | enableBtn : Action

/-- Effect of one step on the document. fetchGet and logError do not
change the modelled state. -/
def applyAction (s : DomState) : Action → DomState
  | .showError m => displayError m s
  | .clear => clearResults s
  | .showArea => { s with resultsVisible := true }
  | .showLoading => { s with loadingVisible := true }
  | .disableBtn => { s with submitDisabled := true }
  | .fetchGet _ => s
  | .render data => (displayResults data s).1
  | .logError => s
  | .hideLoading => { s with loadingVisible := false }
  | .enableBtn => { s with submitDisabled := false }

/-- The catch-clause message: error.message unless it is falsy. -/
def caughtMessage (m : String) : String :=
  if m = "" then "An unknown error occurred." else m

/-- The try and catch clauses: on a returned payload the renderer runs
(with the catch displaying the rendering TypeError when it throws); on a
thrown fetch failure the error is logged and displayed. -/
def settleActs (fetched : Except JsError JSVal) (s1 : DomState) : List Action :=
  match fetched with
  | .ok data =>
    match displayResults data s1 with
    | (_, none) => [Action.render data]
    | (_, some m) => [Action.render data, Action.logError, Action.showError (caughtMessage m)]
  | .error e => [Action.logError, Action.showError (caughtMessage e.message)]

/-- The submit listener as the sequence of steps it performs, given the
response of the environment to the one possible fetch. An empty trimmed
destination short-circuits to the validation error without clearing
anything. Otherwise the script clears, reveals the area, shows the
spinner, disables the button, fetches, settles, and the finally clause
always hides the spinner and re-enables the button. -/
def submitActions (response : HttpResponse) (s : DomState) : List Action :=
  let destination := jsTrim s.destinationValue
  let preference := s.preferenceValue
  if destination = "" then
    [Action.showError "Please enter a destination city."]
  else
    let s1 := { clearResults s with
                  resultsVisible := true, loadingVisible := true, submitDisabled := true }
    let fetched := fetchRecommendations destination preference response
    [Action.clear, Action.showArea, Action.showLoading, Action.disableBtn,
     Action.fetchGet fetched.1] ++
      settleActs fetched.2 s1 ++ [Action.hideLoading, Action.enableBtn]

/-- The document state after the submit listener finishes. -/
def handleSubmit (response : HttpResponse) (s : DomState) : DomState :=
  (submitActions response s).foldl applyAction s

/-- A value that is neither null nor undefined, so property reads on it
cannot throw. -/
def notNullish : JSVal → Bool
  | .null => false
  | .undefined => false
  | _ => true

/-- A value carrying a number. -/
def isNum : JSVal → Bool
  | .num _ => true
  | _ => false

/-- The notes value cannot make its section throw: either it is an array,
or the guard (truthy and positive length) fails so map is never called. -/
def notesSafe (v : JSVal) : Bool :=
  match v with
  | .arr _ => true
  | _ => !(v.truthy && jsGt0 (v.getD "length"))

/-- A recommendation entry the forEach body survives: not nullish, and
both toFixed receivers are numbers. -/
def recSafe (r : JSVal) : Bool :=
  notNullish r && isNum (r.getD "cost_usd") && isNum (r.getD "environmental_impact_co2_kg")

/-- The recommendations value cannot make its section throw: an array of
safe entries, or a value on which the guard fails so forEach never runs. -/
def recsSafe (v : JSVal) : Bool :=
  match v with
  | .arr xs => xs.all recSafe
  | _ => !(v.truthy && jsGt0 (v.getD "length"))

/-- Payloads on which displayResults performs no throwing step. -/
def displaySafe (data : JSVal) : Bool :=
  notNullish data && notesSafe (data.getD "notes") && recsSafe (data.getD "recommendations")

/-- One recommendation as the documented response shape gives it: the
four documented fields with numeric amounts, and an optional source
label. -/
structure SpecRec where
  mode : String
  duration_minutes : ℚ
  cost_usd : ℚ
  environmental_impact_co2_kg : ℚ
  source_cloud : Option String
deriving DecidableEq, Repr

/-- A success payload of the documented RouteResponse shape: an optional
origin city, an optional notes list and an optional recommendations list,
each absent field simply missing from the JSON object. -/
structure SpecResponse where
  originCity : Option String
  notes : Option (List String)
  recommendations : Option (List SpecRec)
deriving DecidableEq, Repr

/-- The JSON object a SpecRec arrives as. -/
def encodeRec (r : SpecRec) : JSVal :=
  .obj ([("mode", .str r.mode),
         ("duration_minutes", .num r.duration_minutes),
         ("cost_usd", .num r.cost_usd),
         ("environmental_impact_co2_kg", .num r.environmental_impact_co2_kg)] ++
        (match r.source_cloud with
         | some l => [("source_cloud", JSVal.str l)]
         | none => []))

/-- The JSON object a SpecResponse arrives as, absent fields omitted. -/
def encodeResponse (resp : SpecResponse) : JSVal :=
  .obj ((match resp.originCity with
         | some c => [("origin", JSVal.obj [("city", JSVal.str c)])]
         | none => []) ++
        (match resp.notes with
         | some ns => [("notes", JSVal.arr (ns.map JSVal.str))]
         | none => []) ++
        (match resp.recommendations with
         | some rs => [("recommendations", JSVal.arr (rs.map encodeRec))]
         | none => []))

/-- The icon table as the specification words it: six recognised modes
map to fixed icons, anything else shows no icon. -/
def specIcon (m : String) : String :=
  if m = "car" then "🚗"
  else if m = "bus" then "🚌"
  else if m = "train" then "🚆"
  else if m = "bicycle" then "🚲"
  else if m = "walking" then "🚶"
  else if m = "scooter" then "🛴"
  else ""

/-- The recommendation item the code produces for one documented entry
(source label substituted when absent or empty, matching the logical-or). -/
def specLiOf (r : SpecRec) : RecLi :=
  { icon := specIcon r.mode
    modeText := r.mode
    durationText := numToString r.duration_minutes
    costText := "$" ++ toFixed2 r.cost_usd
    co2Text := toFixed2 r.environmental_impact_co2_kg
    sourceText :=
      match r.source_cloud with
      | some l => if l = "" then "Unknown Cloud" else l
      | none => "Unknown Cloud" }

/-- The recommendation list contents described by the specification: the
single literal empty-state item for an absent or empty sequence, else one
item per entry in order. -/
def specItems (resp : SpecResponse) : List LiItem :=
  match resp.recommendations with
  | none => [LiItem.literal "No recommendations found matching your criteria."]
  | some [] => [LiItem.literal "No recommendations found matching your criteria."]
  | some rs => rs.map fun r => LiItem.entry (specLiOf r)

/-- The origin region HTML the code produces for a documented payload. -/
def specOriginHTML (resp : SpecResponse) : String :=
  match resp.originCity with
  | some c =>
    if c = "" then "<p>Origin information not available.</p>"
    else "<p><strong>Detected Origin:</strong> " ++ c ++ "</p>"
  | none => "<p>Origin information not available.</p>"

/-- The notes region HTML after rendering a documented payload: rewritten
to one paragraph per note when the list is present and nonempty, left at
its previous contents otherwise. -/
def specNotesHTML (resp : SpecResponse) (old : String) : String :=
  match resp.notes with
  | some (n :: ns) => String.join ((n :: ns).map fun x => "<p>" ++ x ++ "</p>")
  | _ => old

/-- Whether the notes region is revealed: exactly when the list is
present and nonempty. -/
def specNotesVisible (resp : SpecResponse) : Bool :=
  match resp.notes with
  | some (_ :: _) => true
  | _ => false

/-- Formalisation of the message-selection rule exactly as the claim
words it: the error field when present, else the details field when
present, else the generic status fallback, also used when the body does
not parse. Presence means the object carries the key, regardless of the
truthiness of the value; this is the definition the code is compared against. -/
def claimErrMessage (status : Nat) (body : Except String JSVal) : String :=
  let fallback := "Server responded with status: " ++ toString status
  match body with
  | .error _ => fallback
  | .ok b =>
    match b with
    | .obj fields =>
      if (fields.lookup "error").isSome then jsToString (b.getD "error")
      else if (fields.lookup "details").isSome then jsToString (b.getD "details")
      else fallback
    | _ => fallback

/-- Fixture: a payload whose single recommendation entry lacks the
numeric cost and CO2 fields. -/
def badRecPayload : JSVal :=
  .obj [("recommendations",
         .arr [.obj [("mode", JSVal.str "car"), ("duration_minutes", JSVal.num 120)]])]

/-- Fixture: a non-ok response whose body carries a present but empty
error field. -/
def emptyErrorResp : HttpResponse :=
  { status := 500, body := .ok (.obj [("error", JSVal.str "")]) }

/-- Fixture: a blank document holding a nonempty destination. -/
def parisDom : DomState := { dom0 with destinationValue := "Paris" }

/-- Fixture: a document still showing a previous result while the
destination has been blanked to whitespace. -/
def staleResultDom : DomState :=
  { dom0 with
      destinationValue := " "
      originHTML := "<p><strong>Detected Origin:</strong> Berlin</p>"
      items := [LiItem.literal "old result"]
      resultsVisible := true }

/-- Fixture: a 500 response with the body of the first of the specification
displayed-message example. -/
def backendDownResp : HttpResponse :=
  { status := 500, body := .ok (.obj [("error", JSVal.str "backend unavailable")]) }

/-- Fixture: a 500 response whose body is not JSON. -/
def unparseableResp : HttpResponse :=
  { status := 500, body := .error "Unexpected token < in JSON" }

/-- Fixture: an ok response carrying the empty documented payload. -/
def okEmptyResp : HttpResponse :=
  { status := 200, body := .ok (encodeResponse { originCity := none, notes := none, recommendations := none }) }

/-- Recogniser for the fetch step of a trace. -/
def isFetch : Action → Bool
  | .fetchGet _ => true
  | _ => false

/-- Fixture: the recommendation of the worked example of the specification
(cost 25.5 and CO2 15.75, written as explicit fractions because decimal
rational literals do not reduce definitionally). -/
def carRec : SpecRec :=
  { mode := "car"
    duration_minutes := 120
    cost_usd := mkRat 51 2
    environmental_impact_co2_kg := mkRat 63 4
    source_cloud := some "GCP" }

/-- Fixture: the worked-example recommendation with a present but empty
source label. -/
def emptySourceRec : SpecRec := { carRec with source_cloud := some "" }

/-- Fixture: the worked-example payload of the specification. -/
def exampleResponse : SpecResponse :=
  { originCity := some "Paris", notes := some [], recommendations := some [carRec] }

/-- Fixture: a payload whose origin object carries an empty city string. -/
def emptyCityResponse : SpecResponse :=
  { originCity := some "", notes := none, recommendations := none }

/-- Fixture: a documented payload whose single recommendation has a
present but empty source label. -/
def emptySourceResponse : SpecResponse :=
  { originCity := none, notes := none, recommendations := some [emptySourceRec] }

/-- Fixture: a raw payload with a present but empty origin city. -/
def emptyCityPayload : JSVal :=
  .obj [("origin", .obj [("city", JSVal.str "")])]

/-- Fixture: the same payload with the city field entirely absent. -/
def absentCityPayload : JSVal :=
  .obj [("origin", .obj [])]

/-- Fixture: a raw payload whose recommendation carries a present but
empty source_cloud string. -/
def emptySourcePayload : JSVal :=
  .obj [("recommendations",
         .arr [.obj [("mode", JSVal.str "car"), ("duration_minutes", JSVal.num 120),
                     ("cost_usd", JSVal.num 1), ("environmental_impact_co2_kg", JSVal.num 2),
                     ("source_cloud", JSVal.str "")]])]

/-- Fixture: the same recommendation with source_cloud entirely absent. -/
def absentSourcePayload : JSVal :=
  .obj [("recommendations",
         .arr [.obj [("mode", JSVal.str "car"), ("duration_minutes", JSVal.num 120),
                     ("cost_usd", JSVal.num 1), ("environmental_impact_co2_kg", JSVal.num 2)]])]

/-- Fixture: a document whose preference control reads cheapest. -/
def cheapestDom : DomState := { dom0 with preferenceValue := "cheapest" }

/-- Fixture: a fresh document holding only the storage produced by saving
the cheapest preference, simulating a page reload. -/
def reloadedDom : DomState := { dom0 with storage := (savePreference cheapestDom).storage }

/-! Shared lemmas about the primitive semantics. -/

theorem getField_ok (v : JSVal) (f : String) (h : notNullish v = true) :
    v.getField f = .ok (v.getD f) := by
  cases v <;> simp_all [notNullish, JSVal.getField, JSVal.getD]

theorem getItem_setItem (store : List (String × String)) (k v : String) :
    getItem (setItem store k v) k = some v := by
  simp [getItem, setItem, List.find?]

/-- C4. For every destination input that trims to the empty string, the
submit listener performs exactly the validation-error step: it never
issues the fetch, and the error region ends up visible with the fixed
message behind the uniform display prefix. -/
theorem submit_empty_destination (response : HttpResponse) (s : DomState)
    (h : jsTrim s.destinationValue = "") :
    submitActions response s = [Action.showError "Please enter a destination city."] ∧
    (∀ u : String, Action.fetchGet u ∉ submitActions response s) ∧
    (handleSubmit response s).errorText = "Error: Please enter a destination city." ∧
    (handleSubmit response s).errorVisible = true := by
  refine ⟨?_, ?_, ?_, ?_⟩ <;>
    simp [submitActions, h, handleSubmit, applyAction, displayError]

/-- Witness for C4 at a whitespace-only destination. -/
theorem submit_empty_destination_witness :
    submitActions okEmptyResp staleResultDom =
      [Action.showError "Please enter a destination city."] ∧
    (handleSubmit okEmptyResp staleResultDom).errorText =
      "Error: Please enter a destination city." := by
  have h := submit_empty_destination okEmptyResp staleResultDom (by decide)
  exact ⟨h.1, h.2.2.1⟩

/-- C6. Saving a nonempty preference value and then loading on a page
whose storage carries the saved bindings restores the control to the
saved value, and loading with nothing stored under the key leaves the
document unchanged. -/
theorem preference_roundtrip (s t : DomState)
    (hv : s.preferenceValue ≠ "") (hst : t.storage = (savePreference s).storage) :
    (loadPreference t).preferenceValue = s.preferenceValue ∧
    (∀ u : DomState, getItem u.storage PREFERENCE_STORAGE_KEY = none → loadPreference u = u) := by
  constructor
  · rw [loadPreference, hst, savePreference]
    simp [getItem_setItem, hv]
  · intro u hu
    rw [loadPreference, hu]

/-- Witness for C6: saving cheapest and reloading restores cheapest, and
a never-saved document keeps its built-in default. -/
theorem preference_roundtrip_witness :
    (loadPreference reloadedDom).preferenceValue = "cheapest" ∧
    loadPreference dom0 = dom0 := by
  have h := preference_roundtrip cheapestDom reloadedDom (by decide) rfl
  exact ⟨h.1, h.2 dom0 rfl⟩

theorem settleActs_no_control (f : Except JsError JSVal) (t : DomState) :
    Action.disableBtn ∉ settleActs f t ∧ Action.enableBtn ∉ settleActs f t ∧
    Action.showLoading ∉ settleActs f t ∧ Action.hideLoading ∉ settleActs f t := by
  cases f with
  | ok data =>
    rcases hd : displayResults data t with ⟨t2, e⟩
    cases e <;> simp [settleActs, hd]
  | error e => simp [settleActs]

theorem settleActs_no_fetch (f : Except JsError JSVal) (t : DomState) :
    (settleActs f t).filter isFetch = [] := by
  cases f with
  | ok data =>
    rcases hd : displayResults data t with ⟨t2, e⟩
    cases e <;> simp [settleActs, hd, isFetch]
  | error e => simp [settleActs, isFetch]

/-- C5. On every submit that reaches the loading state the trace is a
fixed prefix ending in the disable step and the fetch, a settle phase
free of any loading or button step, and the unconditional finally steps
hiding the spinner and re-enabling the button; the final state has the
spinner hidden and the button enabled. The validation-failure path
performs no disable, enable or loading step and leaves both flags
untouched. -/
theorem loading_cleanup (response : HttpResponse) (s : DomState) :
    (jsTrim s.destinationValue ≠ "" →
      submitActions response s =
        [Action.clear, Action.showArea, Action.showLoading, Action.disableBtn,
         Action.fetchGet
           (fetchRecommendations (jsTrim s.destinationValue) s.preferenceValue response).1] ++
          settleActs
            (fetchRecommendations (jsTrim s.destinationValue) s.preferenceValue response).2
            { clearResults s with
                resultsVisible := true, loadingVisible := true, submitDisabled := true } ++
          [Action.hideLoading, Action.enableBtn] ∧
      (handleSubmit response s).loadingVisible = false ∧
      (handleSubmit response s).submitDisabled = false) ∧
    (∀ f t, Action.disableBtn ∉ settleActs f t ∧ Action.enableBtn ∉ settleActs f t ∧
      Action.showLoading ∉ settleActs f t ∧ Action.hideLoading ∉ settleActs f t) ∧
    (jsTrim s.destinationValue = "" →
      Action.disableBtn ∉ submitActions response s ∧
      Action.showLoading ∉ submitActions response s ∧
      (handleSubmit response s).submitDisabled = s.submitDisabled ∧
      (handleSubmit response s).loadingVisible = s.loadingVisible) := by
  refine ⟨fun h => ⟨?_, ?_, ?_⟩, settleActs_no_control, fun h => ⟨?_, ?_, ?_, ?_⟩⟩
  · simp [submitActions, h]
  · simp [handleSubmit, submitActions, h, List.foldl_append, applyAction]
  · simp [handleSubmit, submitActions, h, List.foldl_append, applyAction]
  · simp [submitActions, h]
  · simp [submitActions, h]
  · simp [handleSubmit, submitActions, h, applyAction, displayError]
  · simp [handleSubmit, submitActions, h, applyAction, displayError]

/-- Witness for C5 at a concrete failing request. -/
theorem loading_cleanup_witness :
    (handleSubmit backendDownResp parisDom).loadingVisible = false ∧
    (handleSubmit backendDownResp parisDom).submitDisabled = false := by
  have h := (loading_cleanup backendDownResp parisDom).1 (by decide)
  exact ⟨h.2.1, h.2.2⟩

/-- Counterexample to C2 as stated: with a previous result still on
screen and a whitespace destination, submitting displays the validation
error while the old origin line, old recommendation item and visible
results area all remain — a previous result and a new error shown
together. -/
theorem stale_result_with_error_cex :
    (handleSubmit okEmptyResp staleResultDom).errorVisible = true ∧
    (handleSubmit okEmptyResp staleResultDom).items = [LiItem.literal "old result"] ∧
    (handleSubmit okEmptyResp staleResultDom).originHTML =
      "<p><strong>Detected Origin:</strong> Berlin</p>" ∧
    (handleSubmit okEmptyResp staleResultDom).resultsVisible = true :=
  ⟨rfl, rfl, rfl, rfl⟩

/-- C2 as amended. On every submit whose destination trims nonempty the
very first step clears all result regions, so whenever the settled
request failed the final state shows the error with the origin region,
notes region and recommendation list empty; the validation-failure
submit path instead displays the error without any clearing step. -/
theorem clear_before_display (response : HttpResponse) (s : DomState) :
    (jsTrim s.destinationValue ≠ "" →
      (submitActions response s).head? = some Action.clear ∧
      (∀ e : JsError,
        (fetchRecommendations (jsTrim s.destinationValue) s.preferenceValue response).2 =
            .error e →
        (handleSubmit response s).errorVisible = true ∧
        (handleSubmit response s).items = [] ∧
        (handleSubmit response s).originHTML = "" ∧
        (handleSubmit response s).notesHTML = "")) ∧
    (jsTrim s.destinationValue = "" →
      submitActions response s = [Action.showError "Please enter a destination city."]) := by
  refine ⟨fun h => ⟨?_, fun e he => ?_⟩, fun h => ?_⟩
  · simp [submitActions, h]
  · refine ⟨?_, ?_, ?_, ?_⟩ <;>
      simp [handleSubmit, submitActions, h, he, settleActs, List.foldl_append, applyAction,
            clearResults, displayError]
  · simp [submitActions, h]

/-- Witness for C2 as amended, at a concrete failing request. -/
theorem clear_before_display_witness :
    (handleSubmit backendDownResp parisDom).errorVisible = true ∧
    (handleSubmit backendDownResp parisDom).items = [] := by
  have h := (clear_before_display backendDownResp parisDom).1 (by decide)
  have h2 := h.2 { message := "backend unavailable", status := some 500 } rfl
  exact ⟨h2.1, h2.2.1⟩

/-! Lemmas for the query-string claim: every character emitted by
encodeURIComponent differs from the ampersand (38), equals (61) and
question mark (63) separators, so parsing the built URL recovers exactly
the two parameters. -/

theorem char_toNat_lt (c : Char) : c.toNat < 1114112 := by
  rcases c.valid with h | ⟨_, h⟩ <;> exact Nat.lt_of_lt_of_le h (by norm_num)

theorem utf8Bytes_lt (c : Char) (b : Nat) (hb : b ∈ utf8Bytes c) : b < 256 := by
  have hc := char_toNat_lt c
  simp only [utf8Bytes] at hb
  split_ifs at hb <;> simp at hb <;> omega

theorem hexChar_ne_sep : ∀ m, m < 16 →
    hexChar m ≠ Char.ofNat 38 ∧ hexChar m ≠ Char.ofNat 61 ∧ hexChar m ≠ Char.ofNat 63 := by
  decide

theorem mem_pctByte_ne_sep (b : Nat) (x : Char) (hb : b < 256) (hx : x ∈ pctByte b) :
    x ≠ Char.ofNat 38 ∧ x ≠ Char.ofNat 61 ∧ x ≠ Char.ofNat 63 := by
  simp only [pctByte, List.mem_cons, List.not_mem_nil, or_false] at hx
  rcases hx with rfl | rfl | rfl
  · exact ⟨by decide, by decide, by decide⟩
  · exact hexChar_ne_sep _ (by omega)
  · exact hexChar_ne_sep _ (by omega)

theorem mem_foldr_app {α β : Type} (g : α → List β) (l : List α) (x : β) :
    x ∈ l.foldr (fun b acc => g b ++ acc) [] ↔ ∃ b ∈ l, x ∈ g b := by
  induction l with
  | nil => simp
  | cons c cs ih => simp [List.foldr_cons, List.mem_append, ih]

theorem mem_encChar_ne_sep (c x : Char) (hx : x ∈ encChar c) :
    x ≠ Char.ofNat 38 ∧ x ≠ Char.ofNat 61 ∧ x ≠ Char.ofNat 63 := by
  unfold encChar at hx
  split_ifs at hx with hc
  · simp only [List.mem_singleton] at hx
    subst hx
    refine ⟨?_, ?_, ?_⟩ <;> intro h <;> rw [h] at hc <;> exact absurd hc (by decide)
  · obtain ⟨b, hbl, hxb⟩ := (mem_foldr_app pctByte (utf8Bytes c) x).mp hx
    exact mem_pctByte_ne_sep b x (utf8Bytes_lt c b hbl) hxb

theorem mem_encodeChars_ne_sep (l : List Char) (x : Char) (hx : x ∈ encodeChars l) :
    x ≠ Char.ofNat 38 ∧ x ≠ Char.ofNat 61 ∧ x ≠ Char.ofNat 63 := by
  obtain ⟨c, _, hc⟩ := (mem_foldr_app encChar l x).mp hx
  exact mem_encChar_ne_sep c x hc

theorem splitOnChar_no_sep (sep : Char) (l : List Char) (h : sep ∉ l) :
    splitOnChar sep l = [l] := by
  induction l with
  | nil => rfl
  | cons c cs ih =>
    have h1 : ¬(c = sep) := fun hc => h (by simp [hc])
    have h2 : sep ∉ cs := fun hc => h (List.mem_cons_of_mem _ hc)
    simp [splitOnChar, h1, ih h2]

theorem splitOnChar_append (sep : Char) (a b : List Char) (ha : sep ∉ a) :
    splitOnChar sep (a ++ sep :: b) = a :: splitOnChar sep b := by
  induction a with
  | nil => simp [splitOnChar]
  | cons c cs ih =>
    have h1 : ¬(c = sep) := fun hc => ha (by simp [hc])
    have h2 : sep ∉ cs := fun hc => ha (List.mem_cons_of_mem _ hc)
    simp [splitOnChar, h1, ih h2]

theorem dropThroughChar_append (sep : Char) (a b : List Char) (ha : sep ∉ a) :
    dropThroughChar sep (a ++ sep :: b) = b := by
  induction a with
  | nil => simp [dropThroughChar]
  | cons c cs ih =>
    have h1 : ¬(c = sep) := fun hc => ha (by simp [hc])
    have h2 : sep ∉ cs := fun hc => ha (List.mem_cons_of_mem _ hc)
    simp [dropThroughChar, h1, ih h2]

theorem splitKV_append (k v : List Char) (hk : Char.ofNat 61 ∉ k) :
    splitKV (k ++ Char.ofNat 61 :: v) = (String.mk k, String.mk v) := by
  induction k with
  | nil => simp [splitKV]
  | cons c cs ih =>
    have h1 : ¬(c = Char.ofNat 61) := fun hc => hk (by simp [hc])
    have h2 : Char.ofNat 61 ∉ cs := fun hc => hk (List.mem_cons_of_mem _ hc)
    simp [splitKV, h1, ih h2]

theorem parseQuery_routeUrl (d p : String) :
    parseQuery (routeUrl d p) =
      [("destination", encodeURIComponent d), ("preference", encodeURIComponent p)] := by
  have hd := mem_encodeChars_ne_sep d.data
  have hp := mem_encodeChars_ne_sep p.data
  have hlit1 : ("/api/route?destination=" : String).data =
      "/api/route".data ++ Char.ofNat 63 :: ("destination".data ++ [Char.ofNat 61]) := by decide
  have hlit2 : ("&preference=" : String).data =
      Char.ofNat 38 :: ("preference".data ++ [Char.ofNat 61]) := by decide
  have hurl : (routeUrl d p).data =
      "/api/route".data ++ Char.ofNat 63 ::
        (("destination".data ++ Char.ofNat 61 :: encodeChars d.data) ++ Char.ofNat 38 ::
          ("preference".data ++ Char.ofNat 61 :: encodeChars p.data)) := by
    simp [routeUrl, encodeURIComponent, String.data_append, hlit1, hlit2, List.append_assoc]
  have hnd : Char.ofNat 38 ∉ "destination".data ++ Char.ofNat 61 :: encodeChars d.data := by
    intro hmem
    rcases List.mem_append.mp hmem with hmem | hmem
    · exact absurd hmem (by decide)
    · rcases List.mem_cons.mp hmem with hmem | hmem
      · exact absurd hmem (by decide)
      · exact (hd _ hmem).1 rfl
  have hnp : Char.ofNat 38 ∉ "preference".data ++ Char.ofNat 61 :: encodeChars p.data := by
    intro hmem
    rcases List.mem_append.mp hmem with hmem | hmem
    · exact absurd hmem (by decide)
    · rcases List.mem_cons.mp hmem with hmem | hmem
      · exact absurd hmem (by decide)
      · exact (hp _ hmem).1 rfl
  rw [parseQuery, hurl, dropThroughChar_append _ _ _ (by decide),
      splitOnChar_append _ _ _ hnd, splitOnChar_no_sep _ _ hnp]
  simp only [List.map_cons, List.map_nil]
  rw [splitKV_append _ _ (by decide), splitKV_append _ _ (by decide)]
  rfl

/-- C7. For every destination that trims nonempty and whatever the
preference control holds, one submit issues exactly one GET, and the
query string of its URL parses to exactly the URL-encoded destination and
preference parameters and nothing else (in particular no test_ip
parameter). -/
theorem single_encoded_request (response : HttpResponse) (s : DomState)
    (h : jsTrim s.destinationValue ≠ "") :
    (submitActions response s).filter isFetch =
      [Action.fetchGet (routeUrl (jsTrim s.destinationValue) s.preferenceValue)] ∧
    parseQuery (routeUrl (jsTrim s.destinationValue) s.preferenceValue) =
      [("destination", encodeURIComponent (jsTrim s.destinationValue)),
       ("preference", encodeURIComponent s.preferenceValue)] := by
  constructor
  · simp [submitActions, h, isFetch, settleActs_no_fetch, fetchRecommendations]
  · exact parseQuery_routeUrl _ _

/-- Witness for C7 at a concrete destination with a space and the
cheapest preference. -/
theorem single_encoded_request_witness :
    (submitActions okEmptyResp
        { cheapestDom with destinationValue := "New York" }).filter isFetch =
      [Action.fetchGet "/api/route?destination=New%20York&preference=cheapest"] ∧
    parseQuery "/api/route?destination=New%20York&preference=cheapest" =
      [("destination", "New%20York"), ("preference", "cheapest")] := by
  have h := single_encoded_request okEmptyResp
    { cheapestDom with destinationValue := "New York" } (by decide)
  exact ⟨h.1, h.2⟩

/-- Counterexample to C3 as stated: for a 500 response whose body is the
object with a present but empty error field, the claim prescribes the
message taken from the error field, namely the empty string, but the code
raises and displays the generic status fallback instead, because the
logical-or passes over the falsy empty string. -/
theorem fetch_error_message_cex :
    (fetchRecommendations "Paris" "fastest" emptyErrorResp).2 =
      .error { message := "Server responded with status: 500", status := some 500 } ∧
    claimErrMessage 500 (Except.ok (JSVal.obj [("error", JSVal.str "")])) = "" ∧
    (handleSubmit emptyErrorResp parisDom).errorText =
      "Error: Server responded with status: 500" ∧
    "Server responded with status: 500" ≠ "" :=
  ⟨rfl, rfl, rfl, by decide⟩

/-- C3 as amended. For every non-ok response the client raises a failure
carrying the numeric status and the message selected by truthiness: the
error field when present and truthy, else the details field when present
and truthy, else the generic status fallback, also used when body parsing
fails; and whenever that message is a nonempty string the user then sees
exactly the display prefix followed by it. -/
theorem fetch_error_message (destination preference : String) (response : HttpResponse)
    (h : respOk response.status = false) :
    (fetchRecommendations destination preference response).2 =
      .error { message := errMessage response.status response.body,
               status := some response.status } ∧
    (∀ s : DomState, jsTrim s.destinationValue = destination → destination ≠ "" →
      s.preferenceValue = preference →
      errMessage response.status response.body ≠ "" →
      (handleSubmit response s).errorText =
        "Error: " ++ errMessage response.status response.body ∧
      (handleSubmit response s).errorVisible = true) := by
  have hfst : (fetchRecommendations destination preference response).2 =
      .error { message := errMessage response.status response.body,
               status := some response.status } := by
    simp [fetchRecommendations, h]
  refine ⟨hfst, fun s hdest hne hpref hmsg => ?_⟩
  subst hdest
  subst hpref
  constructor <;>
    simp [handleSubmit, submitActions, hne, settleActs, hfst, applyAction, displayError,
          caughtMessage, hmsg]

/-- Witness for C3 as amended at the two worked examples of the
specification: a 500 with a structured error body displays that message,
and a 500 with an unparseable body displays the status fallback. -/
theorem fetch_error_message_witness :
    (handleSubmit backendDownResp parisDom).errorText = "Error: backend unavailable" ∧
    (handleSubmit unparseableResp parisDom).errorText =
      "Error: Server responded with status: 500" := by
  have h1 := fetch_error_message "Paris" "fastest" backendDownResp (by decide)
  have h2 := fetch_error_message "Paris" "fastest" unparseableResp (by decide)
  exact ⟨(h1.2 parisDom rfl (by decide) rfl (by decide)).1,
         (h2.2 parisDom rfl (by decide) rfl (by decide)).1⟩

/-! Lemmas for the renderer-safety claim. -/

theorem renderRec_ok (r : JSVal) (h : recSafe r = true) : ∃ li, renderRec r = .ok li := by
  have h' := h
  simp only [recSafe, Bool.and_eq_true] at h'
  obtain ⟨⟨h1, h2⟩, h3⟩ := h'
  obtain ⟨qc, hqc⟩ : ∃ q, r.getD "cost_usd" = .num q := by
    cases hv : r.getD "cost_usd" <;> simp_all [isNum]
  obtain ⟨qo, hqo⟩ : ∃ q, r.getD "environmental_impact_co2_kg" = .num q := by
    cases hv : r.getD "environmental_impact_co2_kg" <;> simp_all [isNum]
  simp only [renderRec, getField_ok r "mode" h1, hqc, hqo]
  exact ⟨_, rfl⟩

theorem renderRecs_none (xs : List JSVal) (h : xs.all recSafe = true) :
    (renderRecs xs).2 = none := by
  induction xs with
  | nil => rfl
  | cons r rs ih =>
    simp only [List.all_cons, Bool.and_eq_true] at h
    obtain ⟨li, hli⟩ := renderRec_ok r h.1
    simp [renderRecs, hli, ih h.2]

theorem displayOrigin_ok (data : JSVal) (s : DomState) (h : notNullish data = true) :
    ∃ t, displayOrigin data s = (t, none) := by
  simp only [displayOrigin, getField_ok data "origin" h]
  split <;> exact ⟨_, rfl⟩

theorem displayNotes_ok (v : JSVal) (s : DomState) (h : notesSafe v = true) :
    ∃ t, displayNotes v s = (t, none) := by
  by_cases hg : (v.truthy && jsGt0 (v.getD "length")) = true
  · cases v with
    | arr xs =>
      refine ⟨{ s with
                  notesHTML := String.join (xs.map fun note => "<p>" ++ jsToString note ++ "</p>")
                  notesVisible := true }, ?_⟩
      simp [displayNotes, hg]
    | undefined => simp_all [notesSafe]
    | null => simp_all [notesSafe]
    | bool b => simp_all [notesSafe]
    | num q => simp_all [notesSafe]
    | str t => simp_all [notesSafe]
    | obj fields => simp_all [notesSafe]
  · simp only [displayNotes, if_neg hg]
    exact ⟨_, rfl⟩

theorem displayRecs_ok (v : JSVal) (s : DomState) (h : recsSafe v = true) :
    ∃ t, displayRecs v s = (t, none) := by
  by_cases hg : (v.truthy && jsGt0 (v.getD "length")) = true
  · cases v with
    | arr xs =>
      rcases hr : renderRecs xs with ⟨lis, err⟩
      have herr : err = none := by
        have := renderRecs_none xs (by simpa [recsSafe] using h)
        rw [hr] at this
        exact this
      subst herr
      simp [displayRecs, hg, hr]
    | undefined => simp_all [recsSafe]
    | null => simp_all [recsSafe]
    | bool b => simp_all [recsSafe]
    | num q => simp_all [recsSafe]
    | str t => simp_all [recsSafe]
    | obj fields => simp_all [recsSafe]
  · simp only [displayRecs, if_neg hg]
    exact ⟨_, rfl⟩

/-- C1 as amended. displayResults completes without raising on every
payload that is not nullish, whose notes value cannot derail the map
call, and whose recommendation entries all carry numeric cost_usd and
environmental_impact_co2_kg fields — in particular on every payload of
the documented response shape, where absent origin, notes or
recommendations degrade to empty-state text. A recommendation entry
missing those numeric fields instead makes displayResults throw, as the
counterexample shows. -/
theorem displayResults_no_throw (data : JSVal) (s : DomState)
    (h : displaySafe data = true) : (displayResults data s).2 = none := by
  have h' := h
  simp only [displaySafe, Bool.and_eq_true] at h'
  obtain ⟨⟨h1, h2⟩, h3⟩ := h'
  obtain ⟨t1, ht1⟩ := displayOrigin_ok data s h1
  obtain ⟨t2, ht2⟩ := displayNotes_ok (data.getD "notes") t1 h2
  obtain ⟨t3, ht3⟩ := displayRecs_ok (data.getD "recommendations") t2 h3
  simp [displayResults, ht1, ht2, ht3]

/-- Counterexample to C1 as stated: a payload whose recommendation entry
lacks the numeric cost field makes displayResults raise a TypeError
(reading toFixed) instead of degrading to empty-state text. -/
theorem displayResults_throws_cex :
    (displayResults badRecPayload dom0).2 =
      some "TypeError: rec.cost_usd.toFixed is not a function" := rfl

/-- Witness for C1 as amended at the worked-example payload. -/
theorem displayResults_no_throw_witness :
    displaySafe (encodeResponse exampleResponse) = true ∧
    (displayResults (encodeResponse exampleResponse) dom0).2 = none :=
  ⟨rfl, displayResults_no_throw (encodeResponse exampleResponse) dom0 rfl⟩

/-! Refinement lemmas: rendering an encoded documented payload produces
exactly the specification-side description of each region. -/

theorem jsGt0_natCast (n : Nat) : jsGt0 (JSVal.num (n : ℚ)) = decide (0 < n) := by
  simp [jsGt0, toNumber, Nat.cast_pos]

theorem jsGt0_zero : jsGt0 (JSVal.num 0) = false := by decide

theorem jsGt0_succ (n : Nat) : jsGt0 (JSVal.num ((n : ℚ) + 1)) = true := by
  simp only [jsGt0, toNumber, decide_eq_true_eq]
  positivity

theorem map_note_str (ns : List String) :
    List.map (fun note => "<p>" ++ jsToString note ++ "</p>") (ns.map JSVal.str) =
      ns.map fun x => "<p>" ++ x ++ "</p>" := by
  induction ns <;> simp_all [jsToString]

theorem renderRec_encodeRec (r : SpecRec) : renderRec (encodeRec r) = .ok (specLiOf r) := by
  rcases r with ⟨m, dm, cu, co, sc⟩
  cases sc with
  | none =>
    simp [renderRec, encodeRec, JSVal.getField, JSVal.getD, lookupField, specLiOf, jsOr,
          JSVal.truthy, jsToString, iconFor, specIcon]
  | some l =>
    by_cases hl : l = "" <;>
      simp [renderRec, encodeRec, JSVal.getField, JSVal.getD, lookupField, specLiOf, jsOr,
            JSVal.truthy, jsToString, iconFor, specIcon, hl]

theorem renderRecs_map (rs : List SpecRec) :
    renderRecs (rs.map encodeRec) = (rs.map fun r => LiItem.entry (specLiOf r), none) := by
  induction rs with
  | nil => rfl
  | cons r rest ih => simp [renderRecs, renderRec_encodeRec, ih]

theorem displayOrigin_spec (resp : SpecResponse) (data : JSVal) (s : DomState)
    (h : data.getField "origin" =
      .ok (match resp.originCity with
           | some c => JSVal.obj [("city", JSVal.str c)]
           | none => JSVal.undefined)) :
    displayOrigin data s = ({ s with originHTML := specOriginHTML resp }, none) := by
  rcases resp with ⟨oc, nt, rc⟩
  cases oc with
  | none =>
    have h' : data.getField "origin" = Except.ok JSVal.undefined := by simpa using h
    simp only [displayOrigin, h']
    simp [JSVal.truthy, specOriginHTML]
  | some c =>
    have h' : data.getField "origin" = Except.ok (JSVal.obj [("city", JSVal.str c)]) := by
      simpa using h
    simp only [displayOrigin, h']
    by_cases hc : c = "" <;>
      simp [JSVal.truthy, JSVal.getD, JSVal.getField, lookupField, specOriginHTML, hc, jsToString]

theorem displayNotes_spec (resp : SpecResponse) (v : JSVal) (s : DomState)
    (h : v = (match resp.notes with
              | some ns => JSVal.arr (ns.map JSVal.str)
              | none => JSVal.undefined)) :
    displayNotes v s =
      ({ s with
          notesHTML := specNotesHTML resp s.notesHTML
          notesVisible := specNotesVisible resp }, none) := by
  rcases resp with ⟨oc, nt, rc⟩
  cases nt with
  | none =>
    have h' : v = JSVal.undefined := by simpa using h
    subst h'
    simp [displayNotes, JSVal.truthy, specNotesHTML, specNotesVisible]
  | some ns =>
    have h' : v = JSVal.arr (ns.map JSVal.str) := by simpa using h
    subst h'
    cases ns with
    | nil =>
      simp [displayNotes, JSVal.truthy, JSVal.getD, JSVal.getField, jsGt0_zero,
            specNotesHTML, specNotesVisible]
    | cons n rest =>
      have hmap := map_note_str (n :: rest)
      simp only [List.map_cons, List.map_map, jsToString] at hmap
      simp [displayNotes, JSVal.truthy, JSVal.getD, JSVal.getField, jsGt0_succ,
            specNotesHTML, specNotesVisible, hmap, jsToString]

theorem displayRecs_spec (resp : SpecResponse) (v : JSVal) (s : DomState)
    (h : v = (match resp.recommendations with
              | some rs => JSVal.arr (rs.map encodeRec)
              | none => JSVal.undefined)) :
    displayRecs v s = ({ s with items := specItems resp }, none) := by
  rcases resp with ⟨oc, nt, rc⟩
  cases rc with
  | none =>
    have h' : v = JSVal.undefined := by simpa using h
    subst h'
    simp [displayRecs, JSVal.truthy, specItems]
  | some rs =>
    have h' : v = JSVal.arr (rs.map encodeRec) := by simpa using h
    subst h'
    cases rs with
    | nil =>
      simp [displayRecs, JSVal.truthy, JSVal.getD, JSVal.getField, jsGt0_zero, specItems]
    | cons r rest =>
      have hrr := renderRecs_map (r :: rest)
      simp only [List.map_cons] at hrr
      simp [displayRecs, JSVal.truthy, JSVal.getD, JSVal.getField, jsGt0_succ, specItems, hrr]

theorem displayResults_encode (resp : SpecResponse) (s : DomState) :
    displayResults (encodeResponse resp) s =
      ({ s with
          originHTML := specOriginHTML resp
          notesHTML := specNotesHTML resp s.notesHTML
          notesVisible := specNotesVisible resp
          items := specItems resp }, none) := by
  have hor : (encodeResponse resp).getField "origin" =
      .ok (match resp.originCity with
           | some c => JSVal.obj [("city", JSVal.str c)]
           | none => JSVal.undefined) := by
    rcases resp with ⟨oc, nt, rc⟩
    cases oc <;> cases nt <;> cases rc <;> simp [encodeResponse, JSVal.getField, lookupField]
  have hnt : (encodeResponse resp).getD "notes" =
      (match resp.notes with
       | some ns => JSVal.arr (ns.map JSVal.str)
       | none => JSVal.undefined) := by
    rcases resp with ⟨oc, nt, rc⟩
    cases oc <;> cases nt <;> cases rc <;>
      simp [encodeResponse, JSVal.getD, JSVal.getField, lookupField]
  have hrc : (encodeResponse resp).getD "recommendations" =
      (match resp.recommendations with
       | some rs => JSVal.arr (rs.map encodeRec)
       | none => JSVal.undefined) := by
    rcases resp with ⟨oc, nt, rc⟩
    cases oc <;> cases nt <;> cases rc <;>
      simp [encodeResponse, JSVal.getD, JSVal.getField, lookupField]
  rw [displayResults, displayOrigin_spec resp _ s hor]
  dsimp only []
  rw [displayNotes_spec resp _ _ hnt]
  dsimp only []
  rw [displayRecs_spec resp _ _ hrc]

/-- C8 as amended. For every payload of the documented response shape,
displayResults raises nothing and renders the recommendation list exactly
as described: the single literal empty-state entry for an absent or empty
sequence, else one entry per recommendation in the order received, each
carrying the fixed icon of the six recognised modes (no icon otherwise),
the duration, the dollar-prefixed cost and the CO2 amount both to two
decimal places, and the source label with Unknown Cloud substituted when
source_cloud is absent or empty. -/
theorem recommendation_items_spec (resp : SpecResponse) (s : DomState) :
    (displayResults (encodeResponse resp) s).2 = none ∧
    (displayResults (encodeResponse resp) s).1.items = specItems resp := by
  rw [displayResults_encode]
  exact ⟨rfl, rfl⟩

/-- Counterexample to C8 as stated: a recommendation whose source_cloud
is present but empty renders the substituted Unknown Cloud label, not its
own (empty) source label, because the code tests the field by truthiness
rather than absence. -/
theorem empty_source_label_cex :
    (displayResults (encodeResponse emptySourceResponse) dom0).1.items =
      [LiItem.entry { icon := "🚗", modeText := "car", durationText := "120",
                      costText := "$25.50", co2Text := "15.75",
                      sourceText := "Unknown Cloud" }] ∧
    ("Unknown Cloud" : String) ≠ "" :=
  ⟨by decide, by decide⟩

/-- C9 as amended. For every payload of the documented response shape the
origin region shows the detected-origin line exactly when origin.city is
present and nonempty (the fixed not-available message otherwise,
including for a present but empty city), and the notes region is revealed
with one paragraph per note exactly when the notes list is present and
nonempty, remaining hidden when the list is absent or empty. -/
theorem origin_notes_spec (resp : SpecResponse) (s : DomState) :
    (displayResults (encodeResponse resp) s).1.originHTML = specOriginHTML resp ∧
    (displayResults (encodeResponse resp) s).1.notesVisible = specNotesVisible resp ∧
    (displayResults (encodeResponse resp) s).1.notesHTML = specNotesHTML resp s.notesHTML := by
  rw [displayResults_encode]
  exact ⟨rfl, rfl, rfl⟩

/-- Counterexample to C9 as stated: an origin object whose city field is
present but empty renders the fixed not-available message, not the
detected-origin line the claim prescribes for a present city. -/
theorem empty_city_origin_cex :
    (displayResults (encodeResponse emptyCityResponse) dom0).1.originHTML =
      "<p>Origin information not available.</p>" ∧
    ("<p>Origin information not available.</p>" : String) ≠
      "<p><strong>Detected Origin:</strong> </p>" :=
  ⟨rfl, by decide⟩

/-- C10. displayResults tests string fields by truthiness: an origin
object with an empty city renders the not-available message and yields
the very same document as an absent city, and a recommendation with an
empty source_cloud renders the Unknown Cloud label and yields the very
same document as an absent source_cloud. -/
theorem truthiness_empty_like_absent :
    (displayResults emptyCityPayload dom0).1.originHTML =
      "<p>Origin information not available.</p>" ∧
    (displayResults emptyCityPayload dom0).1 = (displayResults absentCityPayload dom0).1 ∧
    (displayResults emptySourcePayload dom0).1.items =
      [LiItem.entry { icon := "🚗", modeText := "car", durationText := "120",
                      costText := "$1.00", co2Text := "2.00",
                      sourceText := "Unknown Cloud" }] ∧
    (displayResults emptySourcePayload dom0).1 = (displayResults absentSourcePayload dom0).1 :=
  ⟨rfl, rfl, rfl, rfl⟩

end TransportUI
